import Mathlib

/-!
# Verification of the chronicle photo organizer

Shallow embedding of `src/chronicle/organize_photos.py` (the metadata
extraction / classification / grouping / placement pipeline) together with
proofs checking the natural-language specification against it.

Python strings are modelled by Lean `String` (`List Char` data); Python
`None`-able values by `Option`; the destination filesystem by the list of
destination-relative paths of the files that exist; the SHA-256 compression
function (a standard-library call, not repository code) is a parameter of
the checksum embedding.
-/

namespace Chronicle

/-! ## Python-style string primitives -/

/-- Lower-case every character (Python `str.lower`, ASCII inputs). -/
def strLower (s : String) : String := ⟨s.data.map Char.toLower⟩

/-- Upper-case every character (Python `str.upper`, ASCII inputs). -/
def strUpper (s : String) : String := ⟨s.data.map Char.toUpper⟩

/-- Drop characters satisfying `p` from both ends. -/
def stripWith (p : Char → Bool) (l : List Char) : List Char :=
  ((l.dropWhile p).reverse.dropWhile p).reverse

/-- Python `str.strip()` (whitespace at both ends). -/
def pyStrip (s : String) : String := ⟨stripWith Char.isWhitespace s.data⟩

/-- Python `str.strip("_")`. -/
def stripUnderscores (s : String) : String := ⟨stripWith (· == '_') s.data⟩

/-- Python `str.replace(pat, rep)`: replace non-overlapping occurrences left
to right; the replacement text is not rescanned.  (All patterns used by the
source are non-empty; an empty pattern is a no-op here.)  The recursion
consumes at least one character of `s` per step, so it is driven by a fuel
counter initialized to `s.length` (the fuel-exhausted branch is
unreachable); this keeps the function structurally recursive. -/
def replaceLF (pat rep : List Char) : Nat → List Char → List Char
  | _, [] => []
  | 0, s => s
  | fuel + 1, c :: cs =>
    if pat.isPrefixOf (c :: cs) ∧ pat ≠ [] then
      rep ++ replaceLF pat rep fuel ((c :: cs).drop pat.length)
    else
      c :: replaceLF pat rep fuel cs

/-- Python `str.replace` on character lists. -/
def replaceL (pat rep s : List Char) : List Char := replaceLF pat rep s.length s

/-- `String` wrapper for `replaceL`. -/
def replaceStr (s pat rep : String) : String := ⟨replaceL pat.data rep.data s.data⟩

/-- Helper for `pyWords`: accumulate the current word (reversed) while
scanning. -/
def splitWSAux : List Char → List Char → List (List Char)
  | [], acc => if acc = [] then [] else [acc.reverse]
  | c :: cs, acc =>
    if c.isWhitespace then
      if acc = [] then splitWSAux cs [] else acc.reverse :: splitWSAux cs []
    else splitWSAux cs (c :: acc)

/-- Python `str.split()` with no argument: split on whitespace runs,
dropping empty chunks. -/
def pyWords (s : String) : List String := (splitWSAux s.data []).map String.mk

/-- Python `str.capitalize()`: first character upper-cased, the rest
lower-cased. -/
def pyCapitalize (s : String) : String :=
  match s.data with
  | [] => ""
  | c :: cs => ⟨Char.toUpper c :: cs.map Char.toLower⟩

/-- Contiguous-substring test on character lists (Python `in` on strings). -/
def containsL (pat : List Char) : List Char → Bool
  | [] => pat.isEmpty
  | c :: cs => pat.isPrefixOf (c :: cs) || containsL pat cs

/-- Python `pat in s` (substring containment). -/
def containsS (pat s : String) : Bool := containsL pat.data s.data

/-- Python `s.startswith(pre)`. -/
def startsS (pre s : String) : Bool := pre.data.isPrefixOf s.data

/-- Python `s.endswith(suf)`. -/
def endsS (suf s : String) : Bool := suf.data.isSuffixOf s.data

/-- Count the positions at which `pat` occurs in `s` (used to state "no
duplicated token"). -/
def countSubL (pat : List Char) : List Char → Nat
  | [] => 0
  | c :: cs => (if pat.isPrefixOf (c :: cs) then 1 else 0) + countSubL pat cs

/-- Occurrence count of `pat` inside `s`. -/
def countSub (pat s : String) : Nat := countSubL pat.data s.data

/-- Numeric value of a decimal digit character. -/
def digitVal (c : Char) : Nat := c.toNat - 48

/-- Value of a list of decimal digit characters, most significant first. -/
def valDigits (l : List Char) : Nat := l.foldl (fun a c => a * 10 + digitVal c) 0

/-- Python `int(s)` on stripped input: optional sign followed by decimal
digits; anything else raises, modelled as `none`. -/
def pyInt? (s : String) : Option Int :=
  match stripWith Char.isWhitespace s.data with
  | '+' :: ds => if ds ≠ [] ∧ ds.all Char.isDigit then some (valDigits ds) else none
  | '-' :: ds => if ds ≠ [] ∧ ds.all Char.isDigit then some (-(valDigits ds : Int)) else none
  | ds => if ds ≠ [] ∧ ds.all Char.isDigit then some (valDigits ds) else none

/-- Helper for `splitSub`: split on a literal separator substring, keeping
empty chunks (Python `str.split(sep)`).  Fuel-driven structural recursion
as in `replaceLF` (each step consumes at least one character). -/
def splitSubAuxF (sep : List Char) : Nat → List Char → List Char → List (List Char)
  | _, [], acc => [acc.reverse]
  | 0, l, acc => [acc.reverse ++ l]
  | fuel + 1, c :: cs, acc =>
    if sep.isPrefixOf (c :: cs) ∧ sep ≠ [] then
      acc.reverse :: splitSubAuxF sep fuel ((c :: cs).drop sep.length) []
    else
      splitSubAuxF sep fuel cs (c :: acc)

/-- Python `s.split(sep)` for a literal separator. -/
def splitSub (sep s : String) : List String :=
  (splitSubAuxF sep.data s.data.length s.data []).map String.mk

/-- Decimal digit list of a natural number, most significant first.
Fuel-driven structural recursion (`n / 10 < n`, so fuel `n + 1` always
suffices; the fuel-exhausted branch is unreachable). -/
def natDigitsF : Nat → Nat → List Char
  | 0, _ => []
  | fuel + 1, n =>
    if n < 10 then [Char.ofNat (48 + n)]
    else natDigitsF fuel (n / 10) ++ [Char.ofNat (48 + n % 10)]

/-- Decimal digit list of a natural number, most significant first. -/
def natDigits (n : Nat) : List Char := natDigitsF (n + 1) n

/-- Decimal rendering of a natural number (what Python's `str`/f-strings
produce for a non-negative `int`). -/
def natRepr (n : Nat) : String := ⟨natDigits n⟩

/-- Python `f"{n:0wd}"`: decimal rendering left-padded with zeros to width
`w`. -/
def pad (w n : Nat) : String :=
  let r := natDigits n
  ⟨List.replicate (w - r.length) '0' ++ r⟩

/-! ## Classifier: extension sets (module constants of `organize_photos.py`) -/

def PHOTO_EXTENSIONS : List String :=
  [".jpg", ".jpeg", ".png", ".heic", ".tif", ".tiff", ".bmp", ".gif"]

def RAW_EXTENSIONS : List String :=
  [".cr2", ".cr3", ".nef", ".nrw", ".arw", ".srf", ".sr2", ".orf", ".raf",
   ".rw2", ".dng", ".pef", ".x3f", ".3fr", ".mef", ".erf", ".kdc", ".dcr",
   ".mos", ".mrw", ".raw", ".rwl", ".srw"]

def JPG_EXTENSIONS : List String := [".jpg", ".jpeg"]

def VIDEO_EXTENSIONS : List String :=
  [".mp4", ".mov", ".avi", ".mkv", ".m4v", ".mpg", ".mpeg", ".wmv", ".flv",
   ".webm", ".3gp", ".3g2", ".mts", ".m2ts", ".vob", ".ogv"]

/-- `path.suffix.lower() in VIDEO_EXTENSIONS`. -/
def isVideoExt (ext : String) : Bool := decide (strLower ext ∈ VIDEO_EXTENSIONS)

/-- File category, the codomain of `get_file_type_category`. -/
inductive FileCat
  | RAW
  | JPG
  | VIDEO
  | OTHER
deriving DecidableEq, Repr

/-- `get_file_type_category` (lines 214-226): category from the lower-cased
extension. -/
def get_file_type_category (ext : String) : FileCat :=
  let e := strLower ext
  if e ∈ RAW_EXTENSIONS then .RAW
  else if e ∈ JPG_EXTENSIONS then .JPG
  else if e ∈ VIDEO_EXTENSIONS then .VIDEO
  else .OTHER

/-! ## Camera Name Normalizer (`normalize_camera_name`, lines 98-179) -/

/-- Brand tokens whose capitalization is "preserved" by `clean` (line 121).  -/
def brandTokens : List String :=
  ["iphone", "ipad", "dji", "gopro", "sony", "canon", "nikon", "fujifilm",
   "olympus", "panasonic", "pentax", "leica", "hasselblad"]

/-- Per-word treatment inside `clean` (lines 118-128). -/
def cleanPart (part : String) : String :=
  let pl := strLower part
  if pl ∈ brandTokens then pyCapitalize part
  else if startsS "ilce-" pl || startsS "dsc-" pl then strUpper part
  else pyCapitalize part

/-- Corporate-suffix noise removed by `clean` (lines 112-113), in source
order. -/
def suffixNoise : List String := ["Corporation", "Inc.", "Inc", "Company", "Ltd.", "Ltd"]

/-- The `while "__" in s: s = s.replace("__", "_")` loop of lines 134-135:
each `replace` shortens the string exactly when `"__"` occurs (every match
turns two characters into one), so iterating while the length shrinks is
the same loop, and at most `s.length` iterations can occur — the fuel
keeps the recursion structural and its exhausted branch unreachable. -/
def collapseLF : Nat → List Char → List Char
  | 0, s => s
  | fuel + 1, s =>
    let t := replaceL ['_', '_'] ['_'] s
    if t.length < s.length then collapseLF fuel t else s

/-- The collapsed string (see `collapseLF`). -/
def collapseL (s : List Char) : List Char := collapseLF (s.length + 1) s

/-- The inner `clean` helper of `normalize_camera_name` (lines 109-138). -/
def clean (s : String) : String :=
  let s1 := pyStrip s
  let s2 := suffixNoise.foldl (fun acc t => replaceStr acc t "") s1
  let s3 := pyStrip s2
  let s4 := String.intercalate " " ((pyWords s3).map cleanPart)
  let s5 := ([" ", "/", "\\", "-"] : List String).foldl (fun acc ch => replaceStr acc ch "_") s4
  let s6 : String := ⟨collapseL s5.data⟩
  stripUnderscores s6

/-- iPhone model reduction (lines 166-172): first underscore-separated part
containing "IPHONE" (case-insensitively) and a digit, else the model
unchanged. -/
def iphoneReduce (model : String) : String :=
  match (splitSub "_" model).find?
      (fun p => containsS "IPHONE" (strUpper p) && p.data.any Char.isDigit) with
  | some p => replaceStr p "_" ""
  | none => model

/-- The model-alias table of `normalize_camera_name` (lines 144-172),
checked in source order. -/
def normalizedModel (model : String) : String :=
  if containsS "ILCE_7M3" model then "A7III"
  else if containsS "ILCE_7M4" model then "A7IV"
  else if containsS "ILCE_7RM3" model then "A7RIII"
  else if containsS "ILCE_7RM4" model then "A7RIV"
  else if containsS "ILCE_7RM5" model then "A7RV"
  else if containsS "ILCE_9" model then "A9"
  else if containsS "ILCE_1" model then "A1"
  else if containsS "MAVIC" (strUpper model) && containsS "3" model then "Mavic3"
  else if containsS "MAVIC" (strUpper model) && containsS "2" model then "Mavic2"
  else if containsS "IPHONE" (strUpper model) then iphoneReduce model
  else model

/-- Python truthiness of an optional string (`None` and `""` are falsy). -/
def pyTruthy : Option String → Bool
  | none => false
  | some s => !(s == "")

/-- Python `a or b` on strings. -/
def pyOrS (a b : String) : String := if a = "" then b else a

/-- `make = clean(raw_make) if raw_make else ""` (line 140). -/
def cleanedMake (raw_make : Option String) : String :=
  if pyTruthy raw_make then clean (raw_make.getD "") else ""

/-- `model = clean(raw_model) if raw_model else ""` (line 141). -/
def cleanedModel (raw_model : Option String) : String :=
  if pyTruthy raw_model then clean (raw_model.getD "") else ""

/-- `normalize_camera_name` (lines 98-179). -/
def normalize_camera_name (raw_make raw_model : Option String) : String :=
  if !pyTruthy raw_make && !pyTruthy raw_model then "UnknownCamera"
  else
    let make := cleanedMake raw_make
    let modelN := normalizedModel (cleanedModel raw_model)
    if make ≠ "" ∧ modelN ≠ "" then
      if startsS (strLower make) (strLower modelN) then modelN
      else make ++ "_" ++ modelN
    else pyOrS make (pyOrS modelN "UnknownCamera")

/-! ## Dates and month formatting -/

/-- `calendar.month_name[1..12]`. -/
def monthNames : List String :=
  ["January", "February", "March", "April", "May", "June", "July", "August",
   "September", "October", "November", "December"]

/-- `format_month_name` (lines 229-241). -/
def format_month_name (m : Nat) (format_type : String) : String :=
  if 1 ≤ m ∧ m ≤ 12 then
    if format_type = "number" then pad 2 m
    else pad 2 m ++ " - " ++ monthNames.getD (m - 1) ""
  else "UnknownMonth"

/-- A `datetime.datetime` value. -/
structure PyDateTime where
  year : Nat
  month : Nat
  day : Nat
  hour : Nat
  minute : Nat
  second : Nat
deriving DecidableEq, Repr

/-- Gregorian leap year. -/
def isLeap (y : Nat) : Bool := (y % 4 == 0 && y % 100 != 0) || y % 400 == 0

/-- Days in a month, as validated by the `datetime` constructor. -/
def daysInMonth (y m : Nat) : Nat :=
  if m = 2 then (if isLeap y then 29 else 28)
  else if m ∈ ([4, 6, 9, 11] : List Nat) then 30
  else 31

/-- Read a run of decimal digits of length `1..maxW` (a `\d{1,maxW}` field
followed by a non-digit, as in `strptime`). -/
def takeNum (maxW : Nat) (l : List Char) : Option (Nat × List Char) :=
  let ds := l.takeWhile Char.isDigit
  if ds ≠ [] ∧ ds.length ≤ maxW then some (valDigits ds, l.dropWhile Char.isDigit)
  else none

/-- Expect a literal character. -/
def expectChar (c : Char) : List Char → Option (List Char)
  | [] => none
  | d :: ds => if d = c then some ds else none

/-- `datetime.strptime(s, "%Y:%m:%d %H:%M:%S")`: the fixed EXIF pattern of
`get_date_taken` (line 86), including the range validation the `datetime`
constructor performs (year ≥ 1, month 1-12, day valid for the month,
hour ≤ 23, minute/second ≤ 59); any mismatch raises, modelled as `none`. -/
def parseExifDatetime (s : String) : Option PyDateTime := do
  let (y, r1) ← takeNum 4 s.data
  let r2 ← expectChar ':' r1
  let (mo, r3) ← takeNum 2 r2
  let r4 ← expectChar ':' r3
  let (d, r5) ← takeNum 2 r4
  let r6 ← expectChar ' ' r5
  let (h, r7) ← takeNum 2 r6
  let r8 ← expectChar ':' r7
  let (mi, r9) ← takeNum 2 r8
  let r10 ← expectChar ':' r9
  let (se, r11) ← takeNum 2 r10
  if r11 = [] ∧ 1 ≤ y ∧ 1 ≤ mo ∧ mo ≤ 12 ∧ 1 ≤ d ∧ d ≤ daysInMonth y mo ∧
      h ≤ 23 ∧ mi ≤ 59 ∧ se ≤ 59 then
    some ⟨y, mo, d, h, mi, se⟩
  else none

/-- Python `a or b` on optional strings, combined with the `if date_str:`
truthiness test of line 83: the first present non-empty value, else
`none`. -/
def pyOrOS (a b : Option String) : Option String :=
  match a with
  | some s => if s ≠ "" then some s else pyOrOS2 b
  | none => pyOrOS2 b
where
  pyOrOS2 : Option String → Option String
    | some t => if t ≠ "" then some t else none
    | none => none

/-- `get_date_taken` (lines 74-95).  The embedded tags of the file are given
as the values the EXIF dictionary holds under `"DateTimeOriginal"` and
`"DateTime"` (both `none` when the EXIF read failed or the tags are
missing), and `mtime` is the filesystem modification time (`none` when
`os.path.getmtime` raises). -/
def get_date_taken (ext : String) (dto dt : Option String)
    (mtime : Option PyDateTime) : Option PyDateTime :=
  let fromTags : Option PyDateTime :=
    if isVideoExt ext then none
    else
      match pyOrOS dto dt with
      | some s => parseExifDatetime s
      | none => none
  match fromTags with
  | some d => some d
  | none => mtime

/-- Modelled from the claim's words (C2), for comparison with
`get_date_taken`: try the "date/time original" tag; a missing, empty or
unparseable value falls through to the NEXT source in the order
original-tag, generic-tag, modification-time. -/
def get_date_taken_claim (ext : String) (dto dt : Option String)
    (mtime : Option PyDateTime) : Option PyDateTime :=
  let p : Option String → Option PyDateTime := fun o =>
    match o with
    | some s => if s ≠ "" then parseExifDatetime s else none
    | none => none
  if isVideoExt ext then mtime
  else
    match p dto with
    | some d => some d
    | none =>
      match p dt with
      | some d => some d
      | none => mtime

/-- The amended derivation order (what the code does): the single embedded
value consulted is "date/time original" if present and non-empty, else the
generic "date/time"; if that one chosen value fails to parse the derivation
falls directly to the modification time — the other tag is not retried. -/
def get_date_taken_amended (ext : String) (dto dt : Option String)
    (mtime : Option PyDateTime) : Option PyDateTime :=
  if isVideoExt ext then mtime
  else
    match pyOrOS dto dt with
    | some s =>
      match parseExifDatetime s with
      | some d => some d
      | none => mtime
    | none => mtime

/-- Year/month resolution from the (possibly absent) capture timestamp
(lines 465-471): `f"{date_taken.year:04d}"` and `format_month_name`, else
the sentinels. -/
def yearMonthOf (month_format : String) : Option PyDateTime → String × String
  | some d => (pad 4 d.year, format_month_name d.month month_format)
  | none => ("UnknownYear", "UnknownMonth")

/-! ## Metadata Extractor: camera identity -/

/-- The `Make`/`Model` entries of a file's EXIF dictionary, after the bytes
decode of lines 196-199 (`none` when the read failed or the tag is
missing). -/
structure CamExif where
  make : Option String
  model : Option String
deriving DecidableEq, Repr

/-- `get_camera_name` (lines 182-201): videos never touch the EXIF data. -/
def get_camera_name (ext : String) (exif : CamExif) : String :=
  if isVideoExt ext then "UnknownCamera"
  else normalize_camera_name exif.make exif.model

/-! ## Metadata Resolver (first pass of `organize_photos`, lines 417-484) -/

/-- The statistics accumulator fields the claims are about (lines 402-411;
the camera histogram and the missing-EXIF counter play no part in any
claim). -/
structure Stats where
  files_processed : Nat
  files_no_date : Nat
  files_no_camera : Nat
  raw_jpg_pairs : Nat
  checksum_log : List (String × String)
deriving DecidableEq, Repr

/-- What the operator types at the three interactive prompts (raw, before
the `.strip()` of lines 252-275). -/
structure PromptResponse where
  camera : String
  year : String
  month : String
deriving DecidableEq, Repr

/-- `prompt_for_metadata` (lines 244-291): returns
`(camera_name, year, month)`. -/
def prompt_for_metadata (resp : PromptResponse) (month_format : String) :
    String × String × String :=
  let cameraIn := pyStrip resp.camera
  let camera :=
    if cameraIn = "" then "UnknownCamera"
    else normalize_camera_name (some cameraIn) none
  let yearIn := pyStrip resp.year
  let year :=
    if yearIn = "" then "UnknownYear"
    else
      match pyInt? yearIn with
      | some y => if 1900 ≤ y ∧ y ≤ 2100 then pad 4 y.toNat else "UnknownYear"
      | none => "UnknownYear"
  let monthIn := pyStrip resp.month
  let month :=
    if monthIn = "" then "UnknownMonth"
    else
      match pyInt? monthIn with
      | some m => if 1 ≤ m ∧ m ≤ 12 then format_month_name m.toNat month_format else "UnknownMonth"
      | none => "UnknownMonth"
  (camera, year, month)

/-- A resolved per-file record (the dict appended at lines 474-481), plus
the chunked content reads the transfer pass will hash (`none` marks a read
that raises). -/
structure FileRec where
  name : String
  stem : String
  ext : String
  camera : String
  year : String
  month : String
  ftype : FileCat
  chunks : List (Option (List Nat))
deriving DecidableEq, Repr

/-- The per-file resolution step of the first pass (lines 434-481): missing
metadata is either prompted for (interactive) or counted (non-interactive),
then year/month are resolved.  `camera0`/`date0` are the extractor outputs
(`get_camera_name`/`get_date_taken`). -/
def resolveFile (interactive : Bool) (month_format : String)
    (name stem ext : String) (ftype : FileCat) (chunks : List (Option (List Nat)))
    (camera0 : String) (date0 : Option PyDateTime)
    (resp : PromptResponse) (stats : Stats) : FileRec × Stats :=
  let needs_camera_prompt := camera0 = "UnknownCamera"
  let needs_date_prompt := date0 = none
  let step :=
    if (needs_camera_prompt ∨ needs_date_prompt) ∧ interactive = true then
      let prompt_camera := (prompt_for_metadata resp month_format).1
      let prompt_year := (prompt_for_metadata resp month_format).2.1
      let prompt_month := (prompt_for_metadata resp month_format).2.2
      let camera1 := if needs_camera_prompt then prompt_camera else camera0
      let dateStats :=
        if needs_date_prompt then
          if prompt_year ≠ "UnknownYear" ∧ prompt_month ≠ "UnknownMonth" then
            match pyInt? ((splitSub " - " prompt_month).headD ""), pyInt? prompt_year with
            | some mn, some yn => ((some ⟨yn.toNat, mn.toNat, 1, 0, 0, 0⟩ : Option PyDateTime), stats)
            | _, _ => (none, { stats with files_no_date := stats.files_no_date + 1 })
          else (none, { stats with files_no_date := stats.files_no_date + 1 })
        else (date0, stats)
      (camera1, dateStats.1, dateStats.2)
    else
      let stats1 :=
        if needs_camera_prompt then { stats with files_no_camera := stats.files_no_camera + 1 }
        else stats
      let stats2 :=
        if needs_date_prompt then { stats1 with files_no_date := stats1.files_no_date + 1 }
        else stats1
      (camera0, date0, stats2)
  let ym := yearMonthOf month_format step.2.1
  ({ name := name, stem := stem, ext := ext, camera := step.1,
     year := ym.1, month := ym.2, ftype := ftype, chunks := chunks }, step.2.2)

/-! ## Grouping & Pairing Engine (lines 486-512) -/

/-- The lower-cased stem a record is filed under in the pairing dicts. -/
def stemKeyOf (r : FileRec) : String := strLower r.stem

/-- Python-dict semantics of `raw_files` / `jpg_files` (lines 487-488): a
dict comprehension keyed by `info["stem"].lower()` keeps, for each key, the
LAST record of the given type with that stem (later entries overwrite
earlier ones). -/
def lastOfType (t : FileCat) (recs : List FileRec) (key : String) : Option FileRec :=
  ((recs.filter (fun r => r.ftype == t)).reverse).find? (fun r => stemKeyOf r == key)

/-- The key set of `raw_files`: distinct lower-cased stems of RAW records,
in first-occurrence order. -/
def rawStemKeys (recs : List FileRec) : List String :=
  ((recs.filter (fun r => r.ftype == FileCat.RAW)).map stemKeyOf).eraseDups

/-- The group-key comparison of lines 495-497 between the dict entries for
one stem. -/
def pairMatch (recs : List FileRec) (key : String) : Bool :=
  match lastOfType FileCat.RAW recs key, lastOfType FileCat.JPG recs key with
  | some ri, some ji => ri.camera == ji.camera && ri.year == ji.year && ri.month == ji.month
  | _, _ => false

/-- The pair counter computed by lines 486-498. -/
def countRawJpgPairs (recs : List FileRec) : Nat :=
  (rawStemKeys recs).countP (pairMatch recs)

/-- Modelled from the claim's words (C4): two records qualify as a RAW/JPEG
pair when their base filenames match case-insensitively, one is RAW and the
other JPEG, and they share the group key. -/
def qualifiesAsPair (a b : FileRec) : Bool :=
  strLower a.stem == strLower b.stem &&
  ((a.ftype == FileCat.RAW && b.ftype == FileCat.JPG) ||
   (a.ftype == FileCat.JPG && b.ftype == FileCat.RAW)) &&
  a.camera == b.camera && a.year == b.year && a.month == b.month

/-- Modelled from the claim's words (C4): the number of qualifying
unordered pairs of records. -/
def claimedPairCount : List FileRec → Nat
  | [] => 0
  | r :: rest => rest.countP (qualifiesAsPair r) + claimedPairCount rest

/-- The group key `(camera, year, month)` (line 503). -/
def groupKey (r : FileRec) : String × String × String := (r.camera, r.year, r.month)

/-- `any(f["type"] == t for f in files)` (lines 509-511). -/
def hasType (t : FileCat) (files : List FileRec) : Bool :=
  files.any (fun f => f.ftype == t)

/-- `needs_separation` (line 512). -/
def needs_separation (separate_file_types : Bool) (files : List FileRec) : Bool :=
  separate_file_types &&
    ((hasType FileCat.JPG files && hasType FileCat.RAW files) || hasType FileCat.VIDEO files)

/-! ## Placement Planner (lines 518-541) -/

/-- The subfolder name used for a category when a group separates (the
`file_type` strings of `get_file_type_category`). -/
def typeFolder : FileCat → String
  | .RAW => "RAW"
  | .JPG => "JPG"
  | .VIDEO => "VIDEO"
  | .OTHER => "OTHER"

/-- The run options `organize_photos` receives (defaults come from the
settings store, an external collaborator). -/
structure Config where
  organization_scheme : String
  month_format : String
  separate_file_types : Bool
  move : Bool
deriving DecidableEq, Repr

/-- Base folder components relative to the destination root, per the
organization scheme (lines 519-530); an unrecognized scheme falls back to
camera/year/month. -/
def baseRelPath (cfg : Config) (camera year month : String) : List String :=
  if cfg.organization_scheme = "camera_year_month" then [camera, year, month]
  else if cfg.organization_scheme = "year_month" then [year, month]
  else if cfg.organization_scheme = "year_month_camera" then [year, month, camera]
  else [camera, year, month]

/-- Folder components for one record: the base path plus, when the group
separates and the category is JPG/RAW/VIDEO, the category subfolder
(lines 532-536). -/
def folderRelPath (cfg : Config) (needsSep : Bool) (r : FileRec) : List String :=
  baseRelPath cfg r.camera r.year r.month ++
    (if needsSep &&
        (r.ftype == FileCat.JPG || r.ftype == FileCat.RAW || r.ftype == FileCat.VIDEO)
     then [typeFolder r.ftype] else [])

/-- The filename probed at step `i` by `get_unique_target` (lines 294-307):
the original name at step 0, `f"{stem}_{i}{suffix}"` afterwards. -/
def candName (stem ext : String) : Nat → String
  | 0 => stem ++ ext
  | Nat.succ i => stem ++ "_" ++ natRepr (i + 1) ++ ext

/-- Destination-relative path of the probed name inside `folder`. -/
def candPath (folder stem ext : String) (i : Nat) : String :=
  folder ++ "/" ++ candName stem ext i

/-- The `while True` probe loop of `get_unique_target` (lines 302-307),
with enough fuel to cover every occupied candidate: the filesystem holds
`fs.length` files, the probed names are pairwise distinct, so some
candidate among any `fs.length + 1` of them is free and the fuel branch is
never reached (proved below). -/
def probeAux (fs : List String) (folder stem ext : String) : Nat → Nat → String
  | 0, i => candName stem ext i
  | Nat.succ fuel, i =>
    if candPath folder stem ext i ∈ fs then probeAux fs folder stem ext fuel (i + 1)
    else candName stem ext i

/-- `get_unique_target` (lines 294-307) over the modelled destination
filesystem `fs` (the list of destination-relative paths that exist):
returns the chosen filename. -/
def get_unique_target (fs : List String) (folder stem ext : String) : String :=
  if candPath folder stem ext 0 ∈ fs then probeAux fs folder stem ext (fs.length + 1) 1
  else candName stem ext 0

/-! ## Transfer Executor (`calculate_checksum` lines 310-322, transfer loop
lines 538-557) -/

/-- Lower-case hex digit. -/
def hexDigit (d : Nat) : Char :=
  if d < 10 then Char.ofNat (48 + d) else Char.ofNat (87 + d)

/-- `w` lower-case hex digits of `n`, most significant first. -/
def hexFixed : Nat → Nat → List Char
  | 0, _ => []
  | Nat.succ w, n => hexFixed w (n / 16) ++ [hexDigit (n % 16)]

/-- `hashlib.sha256(...).hexdigest()`: the 64-character lower-case hex
rendering of the 256-bit digest.  The SHA-256 compression itself is a
standard-library call, so it enters the embedding as the parameter `sha`
(digest of the concatenated bytes, as a number below `2^256`). -/
def sha256hex (sha : List Nat → Nat) (bytes : List Nat) : String :=
  ⟨hexFixed 64 (sha bytes)⟩

/-- `calculate_checksum` (lines 310-322): the file is streamed in chunks; a
read failure at any point (`none` chunk) raises and yields `""`, otherwise
the hex digest of the whole content. -/
def calculate_checksum (sha : List Nat → Nat) (chunks : List (Option (List Nat))) : String :=
  if chunks.any (fun c => c.isNone) then ""
  else sha256hex sha ((chunks.map (fun c => c.getD [])).flatten)

/-- Python dict assignment `log[k] = v` on the association-list model. -/
def setKV (l : List (String × String)) (k v : String) : List (String × String) :=
  if l.any (fun p => p.1 == k) then l.map (fun p => if p.1 == k then (k, v) else p)
  else l ++ [(k, v)]

/-- Dict lookup on the association-list model. -/
def lookupKV (l : List (String × String)) (k : String) : Option String :=
  (l.find? (fun p => p.1 == k)).map (fun p => p.2)

/-- The placement decided for one file: folder components (relative to the
destination root) and the de-collided filename. -/
structure Plan where
  relFolder : List String
  filename : String
deriving DecidableEq, Repr

/-- Destination-relative path of a plan (`str(target.relative_to(dest_dir))`
with `/` separators). -/
def planFull (p : Plan) : String :=
  String.intercalate "/" p.relFolder ++ "/" ++ p.filename

/-- The per-file transfer body (lines 514-557): plan the folder, de-collide
the name against the live filesystem, checksum (recording only on
success), move/copy (either way the target now exists), count the file. -/
def transferOne (sha : List Nat → Nat) (cfg : Config) (needsSep : Bool) (r : FileRec)
    (stats : Stats) (fs : List String) : Stats × List String × Plan :=
  let folderComps := folderRelPath cfg needsSep r
  let folder := String.intercalate "/" folderComps
  let fname := get_unique_target fs folder r.stem r.ext
  let full := folder ++ "/" ++ fname
  let checksum := calculate_checksum sha r.chunks
  let stats1 :=
    if checksum ≠ "" then { stats with checksum_log := setKV stats.checksum_log full checksum }
    else stats
  let stats2 := { stats1 with files_processed := stats1.files_processed + 1 }
  (stats2, fs ++ [full], { relFolder := folderComps, filename := fname })

/-- Transfer every file of one group in order, threading statistics and the
filesystem; also returns the plans in order. -/
def runFiles (sha : List Nat → Nat) (cfg : Config) (needsSep : Bool) :
    List FileRec → Stats → List String → Stats × List String × List Plan
  | [], stats, fs => (stats, fs, [])
  | r :: rest, stats, fs =>
    let step := transferOne sha cfg needsSep r stats fs
    let next := runFiles sha cfg needsSep rest step.1 step.2.1
    (next.1, next.2.1, step.2.2 :: next.2.2)

/-- Distinct group keys in first-occurrence order (the iteration order of
the `defaultdict` built at lines 500-504). -/
def groupKeys (recs : List FileRec) : List (String × String × String) :=
  (recs.map groupKey).eraseDups

/-- The second pass over the groups (lines 506-557). -/
def secondPassAux (sha : List Nat → Nat) (cfg : Config) (recs : List FileRec) :
    List (String × String × String) → Stats → List String →
      Stats × List String × List Plan
  | [], stats, fs => (stats, fs, [])
  | k :: ks, stats, fs =>
    let files := recs.filter (fun r => groupKey r == k)
    let ns := needs_separation cfg.separate_file_types files
    let step := runFiles sha cfg ns files stats fs
    let next := secondPassAux sha cfg recs ks step.1 step.2.1
    (next.1, next.2.1, step.2.2 ++ next.2.2)

/-- The whole second pass: group the resolved records and transfer each
group. -/
def secondPass (sha : List Nat → Nat) (cfg : Config) (recs : List FileRec)
    (stats : Stats) (fs : List String) : Stats × List String × List Plan :=
  secondPassAux sha cfg recs (groupKeys recs) stats fs

/-- Is every character a lower-case hex digit? -/
def isLowerHex (s : String) : Bool :=
  s.data.all (fun c => decide (c ∈ "0123456789abcdef".data))

/-! ## Concrete sample data used by witnesses and counterexamples -/

/-- A stand-in digest function for concrete runs (the theorems about the
checksum quantify over the digest function). -/
def sha0 : List Nat → Nat := fun _ => 0

def cfgSample : Config :=
  { organization_scheme := "camera_year_month", month_format := "number",
    separate_file_types := false, move := false }

def statsZero : Stats :=
  { files_processed := 0, files_no_date := 0, files_no_camera := 0,
    raw_jpg_pairs := 0, checksum_log := [] }

def vidSample : FileRec :=
  { name := "clip.mp4", stem := "clip", ext := ".mp4", camera := "UnknownCamera",
    year := "2024", month := "07", ftype := .VIDEO, chunks := [] }

def rawSample : FileRec :=
  { name := "b.cr2", stem := "b", ext := ".cr2", camera := "Canon",
    year := "2024", month := "01", ftype := .RAW, chunks := [] }

def recACr2 : FileRec :=
  { name := "a.cr2", stem := "a", ext := ".cr2", camera := "Canon_EOS_R5",
    year := "2024", month := "01 - January", ftype := .RAW, chunks := [] }

def recAJpg : FileRec :=
  { name := "a.jpg", stem := "a", ext := ".jpg", camera := "Canon_EOS_R5",
    year := "2024", month := "01 - January", ftype := .JPG, chunks := [] }

def recAMp4 : FileRec :=
  { name := "a.mp4", stem := "a", ext := ".mp4", camera := "Canon_EOS_R5",
    year := "2024", month := "01 - January", ftype := .VIDEO, chunks := [] }

def recANef : FileRec :=
  { name := "a.nef", stem := "a", ext := ".nef", camera := "Nikon_D5300",
    year := "2024", month := "01 - January", ftype := .RAW, chunks := [] }

def imgRec1 : FileRec :=
  { name := "IMG_0001.jpg", stem := "IMG_0001", ext := ".jpg",
    camera := "UnknownCamera", year := "2024", month := "07", ftype := .JPG,
    chunks := [some [1, 2]] }

def imgRec2 : FileRec :=
  { name := "IMG_0001.jpg", stem := "IMG_0001", ext := ".jpg",
    camera := "UnknownCamera", year := "2024", month := "07", ftype := .JPG,
    chunks := [some [3]] }

def recFail : FileRec :=
  { name := "c.jpg", stem := "c", ext := ".jpg", camera := "Sony_A7III",
    year := "2023", month := "11", ftype := .JPG, chunks := [some [1], none] }

def dt1999 : PyDateTime := ⟨1999, 5, 7, 10, 30, 0⟩

def dt2020 : PyDateTime := ⟨2020, 1, 2, 3, 4, 5⟩

/-! ## Helper lemmas: strings and decimal rendering -/

theorem str_data_inj {a b : String} (h : a.data = b.data) : a = b := by
  cases a with
  | mk da => cases b with
    | mk db => cases h; rfl

theorem str_data_append (a b : String) : (a ++ b).data = a.data ++ b.data := rfl

theorem str_ne_empty_iff {s : String} : s ≠ "" ↔ s.data ≠ [] :=
  ⟨fun h hd => h (str_data_inj hd), fun h he => h (congrArg String.data he)⟩

theorem append3_ne_empty (a m b : String) (hm : m ≠ "") : a ++ m ++ b ≠ "" := by
  rw [str_ne_empty_iff] at hm ⊢
  simp only [str_data_append]
  intro h
  rcases List.append_eq_nil.mp h with ⟨h1, _⟩
  rcases List.append_eq_nil.mp h1 with ⟨_, h3⟩
  exact hm h3

theorem pyOrS_ne_empty (a b : String) (hb : b ≠ "") : pyOrS a b ≠ "" := by
  unfold pyOrS
  split
  · exact hb
  · assumption

theorem natDigits_ne_nil (n : Nat) : natDigits n ≠ [] := by
  unfold natDigits
  rw [natDigitsF]
  split
  · simp
  · simp

theorem pad_ne_empty (w n : Nat) : pad w n ≠ "" := by
  rw [str_ne_empty_iff]
  unfold pad
  simp [natDigits_ne_nil n]

theorem format_month_name_ne_empty (m : Nat) (fmt : String) :
    format_month_name m fmt ≠ "" := by
  unfold format_month_name
  split
  · split
    · exact pad_ne_empty 2 m
    · exact append3_ne_empty (pad 2 m) " - " _ (by decide)
  · decide

theorem normalize_camera_name_ne_empty (rm rmo : Option String) :
    normalize_camera_name rm rmo ≠ "" := by
  unfold normalize_camera_name
  dsimp only
  split
  · decide
  · split
    · split
      · next h _ => exact h.2
      · next h _ => exact append3_ne_empty _ "_" _ (by decide)
    · exact pyOrS_ne_empty _ _ (pyOrS_ne_empty _ _ (by decide))

theorem prompt_camera_ne_empty (resp : PromptResponse) (mf : String) :
    (prompt_for_metadata resp mf).1 ≠ "" := by
  unfold prompt_for_metadata
  dsimp only
  split
  · decide
  · exact normalize_camera_name_ne_empty _ _

theorem yearMonthOf_fst_ne_empty (mf : String) (o : Option PyDateTime) :
    (yearMonthOf mf o).1 ≠ "" := by
  cases o with
  | none => exact (by decide : ("UnknownYear" : String) ≠ "")
  | some d => exact pad_ne_empty 4 d.year

theorem yearMonthOf_snd_ne_empty (mf : String) (o : Option PyDateTime) :
    (yearMonthOf mf o).2 ≠ "" := by
  cases o with
  | none => exact (by decide : ("UnknownMonth" : String) ≠ "")
  | some d => exact format_month_name_ne_empty d.month mf

theorem digitVal_ofNat : ∀ d, d < 10 → digitVal (Char.ofNat (48 + d)) = d := by decide

theorem valDigits_append_one (l : List Char) (c : Char) :
    valDigits (l ++ [c]) = 10 * valDigits l + digitVal c := by
  unfold valDigits
  rw [List.foldl_append]
  simp [Nat.mul_comm]

theorem valDigits_natDigitsF : ∀ fuel n, n < fuel → valDigits (natDigitsF fuel n) = n := by
  intro fuel
  induction fuel with
  | zero => intro n h; omega
  | succ fuel ih =>
    intro n h
    rw [natDigitsF]
    split
    · next hlt =>
      simp only [valDigits, List.foldl_cons, List.foldl_nil, Nat.mul_zero, Nat.zero_add]
      simpa using digitVal_ofNat n hlt
    · next hge =>
      have hdiv : n / 10 < fuel := by
        have := Nat.div_lt_self (show 0 < n by omega) (show 1 < 10 by norm_num)
        omega
      rw [valDigits_append_one, ih (n / 10) hdiv,
        digitVal_ofNat (n % 10) (Nat.mod_lt n (by norm_num))]
      omega

theorem valDigits_natDigits (n : Nat) : valDigits (natDigits n) = n :=
  valDigits_natDigitsF (n + 1) n (by omega)

theorem natRepr_inj {m n : Nat} (h : natRepr m = natRepr n) : m = n := by
  have hd : natDigits m = natDigits n := congrArg String.data h
  have := valDigits_natDigits m
  rw [hd, valDigits_natDigits] at this
  omega

/-! ## Helper lemmas: the unique-target probe -/

theorem candName_inj (stem ext : String) {i j : Nat} (hi : 1 ≤ i) (hj : 1 ≤ j)
    (h : candName stem ext i = candName stem ext j) : i = j := by
  cases i with
  | zero => omega
  | succ i' =>
    cases j with
    | zero => omega
    | succ j' =>
      unfold candName at h
      have hdat := congrArg String.data h
      simp only [str_data_append, List.append_assoc] at hdat
      have h1 := List.append_cancel_left hdat
      have h2 := List.append_cancel_left h1
      have h3 := List.append_cancel_right h2
      have : natRepr (i' + 1) = natRepr (j' + 1) := str_data_inj h3
      have := natRepr_inj this
      omega

theorem candPath_inj (folder stem ext : String) {i j : Nat} (hi : 1 ≤ i) (hj : 1 ≤ j)
    (h : candPath folder stem ext i = candPath folder stem ext j) : i = j := by
  unfold candPath at h
  have hdat := congrArg String.data h
  simp only [str_data_append, List.append_assoc] at hdat
  have h1 := List.append_cancel_left hdat
  have h2 := List.append_cancel_left h1
  exact candName_inj stem ext hi hj (str_data_inj h2)

theorem exists_free_cand (fs : List String) (folder stem ext : String) (i : Nat)
    (hi : 1 ≤ i) :
    ∃ j, i ≤ j ∧ j < i + (fs.length + 1) ∧ candPath folder stem ext j ∉ fs := by
  by_contra hcon
  push_neg at hcon
  have hsub : ∀ x ∈ (List.range' i (fs.length + 1)).map (candPath folder stem ext), x ∈ fs := by
    intro x hx
    obtain ⟨j, hj, rfl⟩ := List.mem_map.mp hx
    have hj' := List.mem_range'_1.mp hj
    exact hcon j hj'.1 hj'.2
  have hnodup : ((List.range' i (fs.length + 1)).map (candPath folder stem ext)).Nodup := by
    apply List.Nodup.map_on
    · intro x hx y hy hxy
      have hx' := List.mem_range'_1.mp hx
      have hy' := List.mem_range'_1.mp hy
      exact candPath_inj folder stem ext (by omega) (by omega) hxy
    · simp [List.nodup_range']
  have hlen := (List.Nodup.subperm hnodup hsub).length_le
  simp only [List.length_map, List.length_range'] at hlen
  omega

theorem probeAux_spec (fs : List String) (folder stem ext : String) :
    ∀ (fuel i : Nat), 1 ≤ i →
      (∃ j, i ≤ j ∧ j < i + fuel ∧ candPath folder stem ext j ∉ fs) →
      ∃ k, i ≤ k ∧ probeAux fs folder stem ext fuel i = candName stem ext k ∧
        candPath folder stem ext k ∉ fs ∧
        ∀ j, i ≤ j → j < k → candPath folder stem ext j ∈ fs := by
  intro fuel
  induction fuel with
  | zero =>
    intro i _ hex
    obtain ⟨j, hj1, hj2, _⟩ := hex
    omega
  | succ fuel ih =>
    intro i hi hex
    rw [probeAux]
    by_cases hocc : candPath folder stem ext i ∈ fs
    · rw [if_pos hocc]
      obtain ⟨j, hj1, hj2, hj3⟩ := hex
      have hji : j ≠ i := by
        intro he
        rw [he] at hj3
        exact hj3 hocc
      obtain ⟨k, hk1, hk2, hk3, hk4⟩ :=
        ih (i + 1) (by omega) ⟨j, by omega, by omega, hj3⟩
      refine ⟨k, by omega, hk2, hk3, ?_⟩
      intro j' h1 h2
      by_cases hji' : j' = i
      · rw [hji']
        exact hocc
      · exact hk4 j' (by omega) h2
    · rw [if_neg hocc]
      exact ⟨i, Nat.le_refl i, rfl, hocc, fun j h1 h2 => absurd h1 (by omega)⟩

theorem get_unique_target_spec (fs : List String) (folder stem ext : String) :
    ∃ k, get_unique_target fs folder stem ext = candName stem ext k ∧
      candPath folder stem ext k ∉ fs ∧
      ∀ j, j < k → candPath folder stem ext j ∈ fs := by
  unfold get_unique_target
  by_cases h0 : candPath folder stem ext 0 ∈ fs
  · rw [if_pos h0]
    obtain ⟨j, hj1, hj2, hj3⟩ := exists_free_cand fs folder stem ext 1 (Nat.le_refl 1)
    obtain ⟨k, hk1, hk2, hk3, hk4⟩ :=
      probeAux_spec fs folder stem ext (fs.length + 1) 1 (Nat.le_refl 1) ⟨j, hj1, hj2, hj3⟩
    refine ⟨k, hk2, hk3, ?_⟩
    intro j' hj'
    by_cases hz : j' = 0
    · rw [hz]
      exact h0
    · exact hk4 j' (by omega) hj'
  · rw [if_neg h0]
    exact ⟨0, rfl, h0, fun j hj => absurd hj (by omega)⟩

theorem get_unique_target_not_mem (fs : List String) (folder stem ext : String) :
    folder ++ "/" ++ get_unique_target fs folder stem ext ∉ fs := by
  obtain ⟨k, hk, hfree, _⟩ := get_unique_target_spec fs folder stem ext
  rw [hk]
  exact hfree

/-! ## Helper lemmas: the transfer pass -/

theorem transferOne_fs (sha : List Nat → Nat) (cfg : Config) (ns : Bool) (r : FileRec)
    (stats : Stats) (fs : List String) :
    (transferOne sha cfg ns r stats fs).2.1
      = fs ++ [planFull (transferOne sha cfg ns r stats fs).2.2] := rfl

theorem transferOne_fresh (sha : List Nat → Nat) (cfg : Config) (ns : Bool) (r : FileRec)
    (stats : Stats) (fs : List String) :
    planFull (transferOne sha cfg ns r stats fs).2.2 ∉ fs :=
  get_unique_target_not_mem fs (String.intercalate "/" (folderRelPath cfg ns r)) r.stem r.ext

theorem transferOne_snd_indep (sha : List Nat → Nat) (cfg : Config) (ns : Bool)
    (r : FileRec) (s s' : Stats) (fs : List String) :
    (transferOne sha cfg ns r s fs).2 = (transferOne sha cfg ns r s' fs).2 := rfl

theorem transferOne_pairs (sha : List Nat → Nat) (cfg : Config) (ns : Bool)
    (r : FileRec) (stats : Stats) (fs : List String) :
    (transferOne sha cfg ns r stats fs).1.raw_jpg_pairs = stats.raw_jpg_pairs := by
  unfold transferOne
  dsimp only
  split
  · rfl
  · rfl

theorem runFiles_inv (sha : List Nat → Nat) (cfg : Config) (ns : Bool) :
    ∀ (files : List FileRec) (stats : Stats) (fs : List String),
      (runFiles sha cfg ns files stats fs).2.1
          = fs ++ ((runFiles sha cfg ns files stats fs).2.2.map planFull) ∧
      (∀ t ∈ (runFiles sha cfg ns files stats fs).2.2.map planFull, t ∉ fs) ∧
      ((runFiles sha cfg ns files stats fs).2.2.map planFull).Nodup := by
  intro files
  induction files with
  | nil =>
    intro stats fs
    simp [runFiles]
  | cons r rest ih =>
    intro stats fs
    rw [runFiles]
    dsimp only
    rw [transferOne_fs sha cfg ns r stats fs]
    obtain ⟨ih1, ih2, ih3⟩ :=
      ih (transferOne sha cfg ns r stats fs).1
        (fs ++ [planFull (transferOne sha cfg ns r stats fs).2.2])
    refine ⟨?_, ?_, ?_⟩
    · rw [List.map_cons, ih1]
      simp
    · intro t ht
      rw [List.map_cons] at ht
      rcases List.mem_cons.mp ht with h | h
      · rw [h]
        exact transferOne_fresh sha cfg ns r stats fs
      · intro hmem
        exact ih2 t h (List.mem_append_left _ hmem)
    · rw [List.map_cons]
      refine List.nodup_cons.mpr ⟨?_, ih3⟩
      intro hmem
      exact ih2 _ hmem (List.mem_append_right _ (List.mem_singleton.mpr rfl))

theorem secondPassAux_inv (sha : List Nat → Nat) (cfg : Config) (recs : List FileRec) :
    ∀ (ks : List (String × String × String)) (stats : Stats) (fs : List String),
      (secondPassAux sha cfg recs ks stats fs).2.1
          = fs ++ ((secondPassAux sha cfg recs ks stats fs).2.2.map planFull) ∧
      (∀ t ∈ (secondPassAux sha cfg recs ks stats fs).2.2.map planFull, t ∉ fs) ∧
      ((secondPassAux sha cfg recs ks stats fs).2.2.map planFull).Nodup := by
  intro ks
  induction ks with
  | nil =>
    intro stats fs
    simp [secondPassAux]
  | cons k rest ih =>
    intro stats fs
    rw [secondPassAux]
    dsimp only
    set files := recs.filter (fun r => groupKey r == k) with hfiles
    set ns := needs_separation cfg.separate_file_types files with hns
    obtain ⟨g1, g2, g3⟩ := runFiles_inv sha cfg ns files stats fs
    rw [g1]
    obtain ⟨ih1, ih2, ih3⟩ :=
      ih (runFiles sha cfg ns files stats fs).1
        (fs ++ ((runFiles sha cfg ns files stats fs).2.2.map planFull))
    refine ⟨?_, ?_, ?_⟩
    · rw [List.map_append, ih1]
      simp
    · intro t ht
      rw [List.map_append] at ht
      rcases List.mem_append.mp ht with h | h
      · exact g2 t h
      · intro hmem
        exact ih2 t h (List.mem_append_left _ hmem)
    · rw [List.map_append]
      apply List.Nodup.append g3 ih3
      intro t ht1 ht2
      exact ih2 t ht2 (List.mem_append_right _ ht1)

theorem runFiles_snd_indep (sha : List Nat → Nat) (cfg : Config) (ns : Bool) :
    ∀ (files : List FileRec) (fs : List String) (s s' : Stats),
      (runFiles sha cfg ns files s fs).2 = (runFiles sha cfg ns files s' fs).2 := by
  intro files
  induction files with
  | nil => intro fs s s'; rfl
  | cons r rest ih =>
    intro fs s s'
    rw [runFiles, runFiles]
    dsimp only
    have hstep : (transferOne sha cfg ns r s fs).2 = (transferOne sha cfg ns r s' fs).2 := rfl
    rw [show (transferOne sha cfg ns r s fs).2.1 = (transferOne sha cfg ns r s' fs).2.1 from
      congrArg Prod.fst hstep]
    rw [show (transferOne sha cfg ns r s fs).2.2 = (transferOne sha cfg ns r s' fs).2.2 from
      congrArg Prod.snd hstep]
    have hrec := ih (transferOne sha cfg ns r s' fs).2.1
      (transferOne sha cfg ns r s fs).1 (transferOne sha cfg ns r s' fs).1
    rw [congrArg Prod.fst hrec, congrArg Prod.snd hrec]

theorem runFiles_pairs (sha : List Nat → Nat) (cfg : Config) (ns : Bool) :
    ∀ (files : List FileRec) (stats : Stats) (fs : List String),
      (runFiles sha cfg ns files stats fs).1.raw_jpg_pairs = stats.raw_jpg_pairs := by
  intro files
  induction files with
  | nil => intro stats fs; rfl
  | cons r rest ih =>
    intro stats fs
    rw [runFiles]
    dsimp only
    rw [ih]
    exact transferOne_pairs sha cfg ns r stats fs

theorem secondPassAux_snd_indep (sha : List Nat → Nat) (cfg : Config) (recs : List FileRec) :
    ∀ (ks : List (String × String × String)) (fs : List String) (s s' : Stats),
      (secondPassAux sha cfg recs ks s fs).2 = (secondPassAux sha cfg recs ks s' fs).2 := by
  intro ks
  induction ks with
  | nil => intro fs s s'; rfl
  | cons k rest ih =>
    intro fs s s'
    rw [secondPassAux, secondPassAux]
    dsimp only
    set files := recs.filter (fun r => groupKey r == k) with hfiles
    set ns := needs_separation cfg.separate_file_types files with hns
    have hstep := runFiles_snd_indep sha cfg ns files fs s s'
    rw [show (runFiles sha cfg ns files s fs).2.1 = (runFiles sha cfg ns files s' fs).2.1 from
      congrArg Prod.fst hstep]
    rw [show (runFiles sha cfg ns files s fs).2.2 = (runFiles sha cfg ns files s' fs).2.2 from
      congrArg Prod.snd hstep]
    have hrec := ih (runFiles sha cfg ns files s' fs).2.1
      (runFiles sha cfg ns files s fs).1 (runFiles sha cfg ns files s' fs).1
    rw [congrArg Prod.fst hrec, congrArg Prod.snd hrec]

theorem secondPassAux_pairs (sha : List Nat → Nat) (cfg : Config) (recs : List FileRec) :
    ∀ (ks : List (String × String × String)) (stats : Stats) (fs : List String),
      (secondPassAux sha cfg recs ks stats fs).1.raw_jpg_pairs = stats.raw_jpg_pairs := by
  intro ks
  induction ks with
  | nil => intro stats fs; rfl
  | cons k rest ih =>
    intro stats fs
    rw [secondPassAux]
    dsimp only
    rw [ih]
    exact runFiles_pairs sha cfg _ _ stats fs

/-! ## Helper lemmas: pairing and the checksum ledger -/

theorem countRawJpgPairs_append_video (recs : List FileRec) (v : FileRec)
    (hv : v.ftype = FileCat.VIDEO) :
    countRawJpgPairs (recs ++ [v]) = countRawJpgPairs recs := by
  have hfilR : (recs ++ [v]).filter (fun r => r.ftype == FileCat.RAW)
      = recs.filter (fun r => r.ftype == FileCat.RAW) := by
    rw [List.filter_append]
    simp [hv]
  have hfilJ : (recs ++ [v]).filter (fun r => r.ftype == FileCat.JPG)
      = recs.filter (fun r => r.ftype == FileCat.JPG) := by
    rw [List.filter_append]
    simp [hv]
  unfold countRawJpgPairs rawStemKeys
  rw [hfilR]
  apply List.countP_congr
  intro a _
  unfold pairMatch lastOfType
  rw [hfilR, hfilJ]

theorem lookupKV_map_set (k v : String) :
    ∀ l : List (String × String), l.any (fun p => p.1 == k) = true →
      lookupKV (l.map (fun p => if p.1 == k then (k, v) else p)) k = some v := by
  intro l
  induction l with
  | nil => intro h; simp at h
  | cons p t ih =>
    intro h
    by_cases hp : p.1 = k
    · simp [lookupKV, hp]
    · have ht : t.any (fun p => p.1 == k) = true := by
        simpa [hp] using h
      have ihh := ih ht
      simpa [lookupKV, hp] using ihh

theorem lookupKV_append_new (k v : String) :
    ∀ l : List (String × String), l.any (fun p => p.1 == k) = false →
      lookupKV (l ++ [(k, v)]) k = some v := by
  intro l
  induction l with
  | nil => simp [lookupKV]
  | cons p t ih =>
    intro h
    simp only [List.any_cons, Bool.or_eq_false_iff] at h
    simp only [lookupKV, List.cons_append, List.find?_cons, h.1]
    exact ih h.2

theorem lookupKV_setKV (l : List (String × String)) (k v : String) :
    lookupKV (setKV l k v) k = some v := by
  unfold setKV
  by_cases h : l.any (fun p => p.1 == k)
  · rw [if_pos h]
    exact lookupKV_map_set k v l h
  · rw [if_neg h]
    exact lookupKV_append_new k v l (Bool.eq_false_iff.mpr h)

theorem hexDigit_mem : ∀ d, d < 16 → hexDigit d ∈ "0123456789abcdef".data := by decide

theorem hexFixed_length : ∀ w n, (hexFixed w n).length = w := by
  intro w
  induction w with
  | zero => intro n; rfl
  | succ w ih =>
    intro n
    rw [hexFixed]
    simp [ih]

theorem hexFixed_mem : ∀ w n, ∀ c ∈ hexFixed w n, c ∈ "0123456789abcdef".data := by
  intro w
  induction w with
  | zero => intro n c hc; simp [hexFixed] at hc
  | succ w ih =>
    intro n c hc
    rw [hexFixed] at hc
    rcases List.mem_append.mp hc with h | h
    · exact ih (n / 16) c h
    · rw [List.mem_singleton.mp h]
      exact hexDigit_mem (n % 16) (Nat.mod_lt n (by norm_num))

theorem sha256hex_ne_empty (sha : List Nat → Nat) (bytes : List Nat) :
    sha256hex sha bytes ≠ "" := by
  rw [str_ne_empty_iff]
  intro h
  have hlen := hexFixed_length 64 (sha bytes)
  rw [show (sha256hex sha bytes).data = hexFixed 64 (sha bytes) from rfl] at h
  rw [h] at hlen
  simp at hlen

theorem isLowerHex_sha256hex (sha : List Nat → Nat) (bytes : List Nat) :
    isLowerHex (sha256hex sha bytes) = true := by
  unfold isLowerHex sha256hex
  rw [List.all_eq_true]
  intro c hc
  exact decide_eq_true (hexFixed_mem 64 (sha bytes) c hc)

/-! ## Claim theorems -/

/-- C1, counterexample: a group whose members are all of the single
category VIDEO IS separated when the option is enabled, refuting "a group
whose members are all of one single category is never separated". -/
theorem c1_counterexample :
    [vidSample].all (fun f => f.ftype == FileCat.VIDEO) = true ∧
    needs_separation true [vidSample] = true := by decide

/-- C1 (amended): for every group of resolved records, type-separation
applies iff the separate-file-types option is enabled and the group
contains both RAW and JPEG members or any VIDEO member; a group whose
members all share one single NON-VIDEO category is never separated even
when the option is enabled (an all-VIDEO group does separate); a separated
file gets the category subfolder exactly when its category is not OTHER. -/
theorem c1_type_separation (cfg : Config) (sep : Bool) (files : List FileRec)
    (r : FileRec) (t : FileCat) :
    (needs_separation sep files = true ↔
      (sep = true ∧ ((hasType FileCat.JPG files = true ∧ hasType FileCat.RAW files = true)
        ∨ hasType FileCat.VIDEO files = true))) ∧
    ((∀ f ∈ files, f.ftype = t) → t ≠ FileCat.VIDEO → needs_separation sep files = false) ∧
    (folderRelPath cfg (needs_separation sep files) r =
      baseRelPath cfg r.camera r.year r.month ++
        (if needs_separation sep files = true ∧ r.ftype ≠ FileCat.OTHER
         then [typeFolder r.ftype] else [])) := by
  refine ⟨?_, ?_, ?_⟩
  · simp [needs_separation, Bool.and_eq_true, Bool.or_eq_true]
  · intro hall ht
    have hno : ∀ u : FileCat, u ≠ t → hasType u files = false := by
      intro u hu
      rw [hasType, List.any_eq_false]
      intro f hf
      have hft := hall f hf
      simp only [hft, beq_iff_eq]
      exact fun he => hu he.symm
    unfold needs_separation
    cases t with
    | RAW =>
      rw [hno FileCat.JPG (by decide), hno FileCat.VIDEO (by decide)]
      simp
    | JPG =>
      rw [hno FileCat.RAW (by decide), hno FileCat.VIDEO (by decide)]
      simp
    | VIDEO => exact absurd rfl ht
    | OTHER =>
      rw [hno FileCat.JPG (by decide), hno FileCat.VIDEO (by decide)]
      simp
  · by_cases hsep : needs_separation sep files = true
    · cases hr : r.ftype <;> simp [folderRelPath, hsep, hr, typeFolder]
    · have hf : needs_separation sep files = false := by
        simpa using hsep
      simp [folderRelPath, hf, hsep]

/-- C1 witness: a RAW-only group does not separate even with the option
on. -/
theorem c1_witness : needs_separation true [rawSample] = false :=
  (c1_type_separation cfgSample true [rawSample] rawSample FileCat.RAW).2.1
    (by decide) (by decide)

/-- C2, counterexample: with an unparseable "date/time original" tag, a
valid generic "date/time" tag and an available mtime, the code falls
straight to mtime (1999) while the claimed order would use the generic tag
(2020). -/
theorem c2_counterexample :
    get_date_taken ".jpg" (some "not a date") (some "2020:01:02 03:04:05") (some dt1999)
      = some dt1999 ∧
    get_date_taken_claim ".jpg" (some "not a date") (some "2020:01:02 03:04:05") (some dt1999)
      = some dt2020 ∧
    dt1999 ≠ dt2020 := by decide

/-- C2 (amended): the embedded value consulted is "date/time original" if
present and non-empty, else the generic "date/time"; if that single chosen
value fails to parse, derivation falls directly to the modification time
(`get_date_taken_amended`); and a file with a valid "date/time original"
tag resolves its year/month from that tag regardless of mtime. -/
theorem c2_date_order (ext : String) (dto dt : Option String) (mtime : Option PyDateTime)
    (s : String) (d : PyDateTime) (fmt : String) :
    (∀ (e : String) (a b : Option String) (m : Option PyDateTime),
        get_date_taken e a b m = get_date_taken_amended e a b m) ∧
    (isVideoExt ext = false → dto = some s → parseExifDatetime s = some d →
      get_date_taken ext dto dt mtime = some d ∧
      yearMonthOf fmt (get_date_taken ext dto dt mtime)
          = (pad 4 d.year, format_month_name d.month fmt)) := by
  constructor
  · intro e a b m
    unfold get_date_taken get_date_taken_amended
    by_cases hv : isVideoExt e
    · simp [hv]
    · simp only [hv, Bool.false_eq_true, if_false]
      cases hab : pyOrOS a b with
      | none => simp
      | some sv =>
        cases hp : parseExifDatetime sv with
        | none => simp
        | some dv => simp
  · intro hnv hdto hp
    have hs : s ≠ "" := by
      intro he
      rw [he] at hp
      have : parseExifDatetime "" = none := rfl
      rw [this] at hp
      exact Option.noConfusion hp
    have hor : pyOrOS dto dt = some s := by
      rw [hdto]
      show (if s ≠ "" then some s else pyOrOS.pyOrOS2 dt) = some s
      rw [if_pos hs]
    have hres : get_date_taken ext dto dt mtime = some d := by
      unfold get_date_taken
      simp only [hnv, Bool.false_eq_true, if_false, hor, hp]
    exact ⟨hres, by rw [hres]; rfl⟩

/-- C2 witness: a concrete valid "date/time original" wins over a present
mtime. -/
theorem c2_witness :
    get_date_taken ".jpg" (some "2021:07:09 12:00:00") none (some dt1999)
      = some ⟨2021, 7, 9, 12, 0, 0⟩ ∧
    yearMonthOf "number" (get_date_taken ".jpg" (some "2021:07:09 12:00:00") none (some dt1999))
      = (pad 4 2021, format_month_name 7 "number") :=
  (c2_date_order ".jpg" (some "2021:07:09 12:00:00") none (some dt1999)
    "2021:07:09 12:00:00" ⟨2021, 7, 9, 12, 0, 0⟩ "number").2 (by decide) rfl (by decide)

/-- C3, counterexample: normalization is not idempotent —
renormalizing the normalized name `Nikon_D5300` lower-cases the interior
capitals. -/
theorem c3_counterexample :
    normalize_camera_name none (some "NIKON D5300") = "Nikon_D5300" ∧
    normalize_camera_name none (some (normalize_camera_name none (some "NIKON D5300")))
      = "Nikon_d5300" ∧
    ("Nikon_d5300" : String) ≠ "Nikon_D5300" := by decide

/-- C3 (amended): renormalization leaves a non-empty name unchanged when
the name is a fixed point of the cleaning step and of the model-alias
table (in general idempotence fails, as the counterexample shows). -/
theorem c3_idempotent_on_fixed (X : String) (h1 : X ≠ "") (h2 : clean X = X)
    (h3 : normalizedModel X = X) :
    normalize_camera_name none (some X) = X := by
  simp [normalize_camera_name, cleanedMake, cleanedModel, pyTruthy, pyOrS, h1, h2, h3]

/-- C3 witness: `Sony` is such a fixed point. -/
theorem c3_witness : normalize_camera_name none (some "Sony") = "Sony" :=
  c3_idempotent_on_fixed "Sony" (by decide) (by decide) (by decide)

/-- C8: the two concrete normalizer examples of the spec, and the general
rule: when both the cleaned make and the normalized model survive and the
model starts with the make case-insensitively, the model alone is
returned. -/
theorem c8_normalizer_examples (m n : Option String)
    (hmk : cleanedMake m ≠ "")
    (hmo : normalizedModel (cleanedModel n) ≠ "")
    (hpre : startsS (strLower (cleanedMake m)) (strLower (normalizedModel (cleanedModel n)))
      = true) :
    normalize_camera_name m n = normalizedModel (cleanedModel n) ∧
    normalize_camera_name (some "SONY") (some "ILCE-7M3") = "Sony_A7III" ∧
    endsS "A7III" "Sony_A7III" = true ∧
    countSub "Sony" "Sony_A7III" = 1 ∧
    normalize_camera_name none (some "NIKON D5300") = "Nikon_D5300" := by
  refine ⟨?_, by decide, by decide, by decide, by decide⟩
  have htr : pyTruthy m = true := by
    by_contra hf
    apply hmk
    unfold cleanedMake
    rw [if_neg hf]
  unfold normalize_camera_name
  rw [if_neg (by simp [htr])]
  dsimp only
  rw [if_pos ⟨hmk, hmo⟩, if_pos hpre]

/-- C8 witness: `normalize("Nikon", "NIKON D5300")` keeps the model alone
(no `Nikon_Nikon_D5300`). -/
theorem c8_witness :
    normalize_camera_name (some "Nikon") (some "NIKON D5300")
      = normalizedModel (cleanedModel (some "NIKON D5300")) :=
  (c8_normalizer_examples (some "Nikon") (some "NIKON D5300")
    (by decide) (by decide) (by decide)).1

/-- C4, counterexample: with records `a.cr2` (key G1), `a.nef` (key G2),
`a.jpg` (key G1), the pair (`a.cr2`, `a.jpg`) qualifies under the claim's
definition (claimed count 1), but the code's stem-keyed dicts keep only the
LAST RAW record per stem (`a.nef`), whose key differs, so the counter stays
0. -/
theorem c4_counterexample :
    qualifiesAsPair recACr2 recAJpg = true ∧
    claimedPairCount [recACr2, recANef, recAJpg] = 1 ∧
    countRawJpgPairs [recACr2, recANef, recAJpg] = 0 := by decide

/-- C4 (amended): the counter counts, per distinct lower-cased stem, one
pair exactly when the last-listed RAW record and the last-listed JPEG
record with that stem share the group key; in the concrete `a.cr2`/`a.jpg`
case the counter is 1 and an added `a.mp4` in the same group leaves every
count unchanged (generally: appending a VIDEO record never changes the
counter); and the counter has no effect on placement: the plans and final
filesystem of the second pass are independent of the `raw_jpg_pairs`
field. -/
theorem c4_pair_counting (recs : List FileRec) (v : FileRec) (sha : List Nat → Nat)
    (cfg : Config) (stats : Stats) (fs : List String) (k : Nat)
    (hv : v.ftype = FileCat.VIDEO) :
    countRawJpgPairs (recs ++ [v]) = countRawJpgPairs recs ∧
    countRawJpgPairs [recACr2, recAJpg] = 1 ∧
    countRawJpgPairs [recACr2, recAJpg, recAMp4] = 1 ∧
    (secondPass sha cfg recs { stats with raw_jpg_pairs := k } fs).2
      = (secondPass sha cfg recs stats fs).2 ∧
    (secondPass sha cfg recs { stats with raw_jpg_pairs := k } fs).1.raw_jpg_pairs = k := by
  refine ⟨countRawJpgPairs_append_video recs v hv, by decide, by decide, ?_, ?_⟩
  · exact secondPassAux_snd_indep sha cfg recs (groupKeys recs) fs _ _
  · exact secondPassAux_pairs sha cfg recs (groupKeys recs) _ fs

/-- C4 witness: adding `a.mp4` to the `a.cr2`/`a.jpg` group leaves the pair
counter at 1. -/
theorem c4_witness :
    countRawJpgPairs ([recACr2, recAJpg] ++ [recAMp4]) = countRawJpgPairs [recACr2, recAJpg] :=
  (c4_pair_counting [recACr2, recAJpg] recAMp4 sha0 cfgSample statsZero [] 7 (by decide)).1

/-- C5: `normalize_camera_name` never returns the empty string (whatever
survives suffix stripping), `get_camera_name` never returns the empty
string, and every record the resolver emits has non-empty camera, year and
month (given the extractor's non-empty camera input), so every grouping key
is well-formed. -/
theorem c5_nonempty_fields (m n : Option String) (ext : String) (exif : CamExif)
    (interactive : Bool) (mf name stem x : String) (ft : FileCat)
    (ch : List (Option (List Nat))) (camera0 : String) (d0 : Option PyDateTime)
    (resp : PromptResponse) (stats : Stats) (hc : camera0 ≠ "") :
    normalize_camera_name m n ≠ "" ∧
    get_camera_name ext exif ≠ "" ∧
    (resolveFile interactive mf name stem x ft ch camera0 d0 resp stats).1.camera ≠ "" ∧
    (resolveFile interactive mf name stem x ft ch camera0 d0 resp stats).1.year ≠ "" ∧
    (resolveFile interactive mf name stem x ft ch camera0 d0 resp stats).1.month ≠ "" := by
  refine ⟨normalize_camera_name_ne_empty m n, ?_, ?_, ?_, ?_⟩
  · unfold get_camera_name
    split
    · exact (by decide : ("UnknownCamera" : String) ≠ "")
    · exact normalize_camera_name_ne_empty _ _
  · unfold resolveFile
    dsimp only
    split
    · split
      · exact prompt_camera_ne_empty resp mf
      · exact hc
    · exact hc
  · exact yearMonthOf_fst_ne_empty mf _
  · exact yearMonthOf_snd_ne_empty mf _

/-- C5 witness: a concrete resolver run has non-empty fields. -/
theorem c5_witness :
    (resolveFile false "number" "clip.mp4" "clip" ".mp4" FileCat.VIDEO []
        "UnknownCamera" none ⟨"", "", ""⟩ statsZero).1.camera ≠ "" :=
  (c5_nonempty_fields none none ".mp4" ⟨none, none⟩ false "number" "clip.mp4" "clip" ".mp4"
    FileCat.VIDEO [] "UnknownCamera" none ⟨"", "", ""⟩ statsZero (by decide)).2.2.1

/-- C6: the planned filename is collision-free against the filesystem state
at planning time — unchanged when free, else the first unused `_i` suffix
(the characterization is `get_unique_target_spec`'s); across a whole second
pass no planned target collides with a pre-existing destination file or
with another planned target (nothing is overwritten); and two identical
source names in one group yield `IMG_0001.jpg` and `IMG_0001_1.jpg`. -/
theorem c6_collision_free (fs : List String) (folder stem x : String)
    (sha : List Nat → Nat) (cfg : Config) (recs : List FileRec) (stats : Stats)
    (fs0 : List String) :
    (candPath folder stem x 0 ∉ fs → get_unique_target fs folder stem x = stem ++ x) ∧
    (∃ k, get_unique_target fs folder stem x = candName stem x k ∧
      candPath folder stem x k ∉ fs ∧ ∀ j, j < k → candPath folder stem x j ∈ fs) ∧
    (∀ t ∈ ((secondPass sha cfg recs stats fs0).2.2.map planFull), t ∉ fs0) ∧
    ((secondPass sha cfg recs stats fs0).2.2.map planFull).Nodup ∧
    ((secondPass sha0 cfgSample [imgRec1, imgRec2] statsZero []).2.2.map (fun p => p.filename)
      = ["IMG_0001.jpg", "IMG_0001_1.jpg"]) := by
  refine ⟨?_, get_unique_target_spec fs folder stem x, ?_, ?_, by decide⟩
  · intro h0
    unfold get_unique_target
    rw [if_neg h0]
    rfl
  · exact (secondPassAux_inv sha cfg recs (groupKeys recs) stats fs0).2.1
  · exact (secondPassAux_inv sha cfg recs (groupKeys recs) stats fs0).2.2

/-- C6 witness: on an empty destination the name is used unmodified. -/
theorem c6_witness :
    get_unique_target [] "UnknownCamera/2024/07" "IMG_0001" ".jpg" = "IMG_0001" ++ ".jpg" :=
  (c6_collision_free [] "UnknownCamera/2024/07" "IMG_0001" ".jpg" sha0 cfgSample []
    statsZero []).1 (by decide)

/-- C7: a failed chunk read yields the empty checksum, no ledger entry, and
the transfer still proceeds (the file is counted and the target is
created); a successful read records the digest — a string of lower-case
hex digits — keyed by the destination-relative path. -/
theorem c7_checksum_errors (sha : List Nat → Nat) (cfg : Config) (ns : Bool) (r : FileRec)
    (stats : Stats) (fs : List String) :
    (r.chunks.any (fun c => c.isNone) = true →
      calculate_checksum sha r.chunks = "" ∧
      (transferOne sha cfg ns r stats fs).1.checksum_log = stats.checksum_log ∧
      (transferOne sha cfg ns r stats fs).1.files_processed = stats.files_processed + 1 ∧
      (transferOne sha cfg ns r stats fs).2.1
        = fs ++ [planFull (transferOne sha cfg ns r stats fs).2.2]) ∧
    (r.chunks.any (fun c => c.isNone) = false →
      calculate_checksum sha r.chunks ≠ "" ∧
      isLowerHex (calculate_checksum sha r.chunks) = true ∧
      lookupKV (transferOne sha cfg ns r stats fs).1.checksum_log
          (planFull (transferOne sha cfg ns r stats fs).2.2)
        = some (calculate_checksum sha r.chunks) ∧
      (transferOne sha cfg ns r stats fs).1.files_processed = stats.files_processed + 1) := by
  constructor
  · intro h
    have hcs : calculate_checksum sha r.chunks = "" := by
      unfold calculate_checksum
      rw [if_pos h]
    refine ⟨hcs, ?_, ?_, transferOne_fs sha cfg ns r stats fs⟩
    · unfold transferOne
      dsimp only
      rw [if_neg (by simp [hcs])]
    · unfold transferOne
      dsimp only
      rw [if_neg (by simp [hcs])]
  · intro h
    have hany : ¬ (r.chunks.any (fun c => c.isNone) = true) := by simp [h]
    have hcs : calculate_checksum sha r.chunks
        = sha256hex sha ((r.chunks.map (fun c => c.getD [])).flatten) := by
      unfold calculate_checksum
      rw [if_neg hany]
    refine ⟨?_, ?_, ?_, ?_⟩
    · rw [hcs]
      exact sha256hex_ne_empty sha _
    · rw [hcs]
      exact isLowerHex_sha256hex sha _
    · have hne : calculate_checksum sha r.chunks ≠ "" := by
        rw [hcs]
        exact sha256hex_ne_empty sha _
      unfold transferOne
      dsimp only
      rw [if_pos hne]
      exact lookupKV_setKV stats.checksum_log _ _
    · unfold transferOne
      dsimp only
      split
      · rfl
      · rfl

/-- C7 witness: a concrete file with a failing chunk read is transferred
without a ledger entry. -/
theorem c7_witness :
    calculate_checksum sha0 recFail.chunks = "" ∧
    (transferOne sha0 cfgSample false recFail statsZero []).1.checksum_log
      = statsZero.checksum_log ∧
    (transferOne sha0 cfgSample false recFail statsZero []).1.files_processed
      = statsZero.files_processed + 1 :=
  ⟨((c7_checksum_errors sha0 cfgSample false recFail statsZero []).1 (by decide)).1,
   ((c7_checksum_errors sha0 cfgSample false recFail statsZero []).1 (by decide)).2.1,
   ((c7_checksum_errors sha0 cfgSample false recFail statsZero []).1 (by decide)).2.2.1⟩

/-- C9: under interactive mode the missing-camera counter never moves, even
when the operator declines and the sentinel is kept; non-interactively it
increments exactly when the extracted camera is the sentinel. -/
theorem c9_no_camera_counter (interactive : Bool) (mf name stem x : String)
    (ft : FileCat) (ch : List (Option (List Nat))) (camera0 : String)
    (d0 : Option PyDateTime) (resp : PromptResponse) (stats : Stats) :
    (interactive = true →
      (resolveFile interactive mf name stem x ft ch camera0 d0 resp stats).2.files_no_camera
        = stats.files_no_camera) ∧
    (interactive = false → camera0 = "UnknownCamera" →
      (resolveFile interactive mf name stem x ft ch camera0 d0 resp stats).2.files_no_camera
        = stats.files_no_camera + 1) ∧
    (interactive = false → camera0 ≠ "UnknownCamera" →
      (resolveFile interactive mf name stem x ft ch camera0 d0 resp stats).2.files_no_camera
        = stats.files_no_camera) ∧
    (interactive = true → camera0 = "UnknownCamera" → pyStrip resp.camera = "" →
      (resolveFile interactive mf name stem x ft ch camera0 d0 resp stats).1.camera
        = "UnknownCamera" ∧
      (resolveFile interactive mf name stem x ft ch camera0 d0 resp stats).2.files_no_camera
        = stats.files_no_camera) := by
  refine ⟨?_, ?_, ?_, ?_⟩
  · intro hi
    subst hi
    unfold resolveFile
    dsimp only
    split
    · repeat' split
      all_goals rfl
    · next hcond =>
      have hnc : ¬ camera0 = "UnknownCamera" := by
        intro hcam
        exact hcond ⟨Or.inl hcam, rfl⟩
      rw [if_neg hnc]
      split
      · rfl
      · rfl
  · intro hi hcam
    subst hi
    unfold resolveFile
    dsimp only
    rw [if_neg (by simp)]
    rw [if_pos hcam]
    split
    · rfl
    · rfl
  · intro hi hcam
    subst hi
    unfold resolveFile
    dsimp only
    rw [if_neg (by simp)]
    rw [if_neg hcam]
    split
    · rfl
    · rfl
  · intro hi hcam hresp
    subst hi
    constructor
    · unfold resolveFile
      dsimp only
      rw [if_pos ⟨Or.inl hcam, rfl⟩, if_pos hcam]
      unfold prompt_for_metadata
      dsimp only
      rw [if_pos hresp]
    · unfold resolveFile
      dsimp only
      rw [if_pos ⟨Or.inl hcam, rfl⟩]
      repeat' split
      all_goals rfl

/-- C9 witness: a declined prompt keeps the sentinel and the counter. -/
theorem c9_witness :
    (resolveFile true "full" "d.jpg" "d" ".jpg" FileCat.JPG [] "UnknownCamera" none
        ⟨"", "", ""⟩ statsZero).1.camera = "UnknownCamera" ∧
    (resolveFile true "full" "d.jpg" "d" ".jpg" FileCat.JPG [] "UnknownCamera" none
        ⟨"", "", ""⟩ statsZero).2.files_no_camera = statsZero.files_no_camera :=
  (c9_no_camera_counter true "full" "d.jpg" "d" ".jpg" FileCat.JPG [] "UnknownCamera" none
    ⟨"", "", ""⟩ statsZero).2.2.2 rfl rfl (by decide)

/-- C10: for a video extension the extracted camera name is always the
sentinel, independent of any EXIF content (no embedded-metadata read can
influence it); non-interactively the record keeps the sentinel, and only a
non-empty interactive response replaces it (normalized). -/
theorem c10_video_camera (ext : String) (exif exif' : CamExif) (mf name stem x : String)
    (ft : FileCat) (ch : List (Option (List Nat))) (d0 : Option PyDateTime)
    (resp : PromptResponse) (stats : Stats) (c : String) (hv : isVideoExt ext = true) :
    get_camera_name ext exif = "UnknownCamera" ∧
    get_camera_name ext exif = get_camera_name ext exif' ∧
    (resolveFile false mf name stem x ft ch (get_camera_name ext exif) d0 resp stats).1.camera
      = "UnknownCamera" ∧
    (pyStrip resp.camera = c → c ≠ "" →
      (resolveFile true mf name stem x ft ch (get_camera_name ext exif) d0 resp stats).1.camera
        = normalize_camera_name (some c) none) := by
  have h1 : get_camera_name ext exif = "UnknownCamera" := by
    unfold get_camera_name
    rw [if_pos hv]
  have h1' : get_camera_name ext exif' = "UnknownCamera" := by
    unfold get_camera_name
    rw [if_pos hv]
  refine ⟨h1, h1.trans h1'.symm, ?_, ?_⟩
  · unfold resolveFile
    dsimp only
    rw [if_neg (by simp)]
    exact h1
  · intro hresp hc
    unfold resolveFile
    dsimp only
    rw [if_pos ⟨Or.inl h1, rfl⟩, if_pos h1]
    unfold prompt_for_metadata
    dsimp only
    rw [hresp, if_neg hc]

/-- C10 witness: an `.mp4` with rich EXIF still maps to the sentinel. -/
theorem c10_witness :
    get_camera_name ".mp4" ⟨some "Canon", some "EOS R5"⟩ = "UnknownCamera" :=
  (c10_video_camera ".mp4" ⟨some "Canon", some "EOS R5"⟩ ⟨none, none⟩ "full" "v.mp4" "v"
    ".mp4" FileCat.VIDEO [] none ⟨"", "", ""⟩ statsZero "" (by decide)).1

end Chronicle
